import Mathlib

/-!
Shallow embedding of the Miku-ASCII-Linux colour ASCII video converter
(`miku.cpp`, and the commented variant with the `ASCIIVideoConstants`
namespace).  Machine integers are modelled as `ℤ`, C++ `double`
arithmetic on the small decimal constants as `ℚ`, truncating casts and
`int` division as `Int.tdiv`.  The OpenCV calls (`cv::resize`,
`cv::putText`, the capture/writer objects) are external collaborators:
`resize` is an explicit function parameter, rasterization is recorded as
a list of draw operations on a black canvas, and the capture/writer
behaviour is an explicit environment.
-/

namespace MikuASCII

/-- The density-ordered glyph ramp `ASCII_CHARS` from `ASCIIVideoConstants`. -/
def ASCII_CHARS : String :=
  " .\x27\x60^\",:;Il!i><~+_-?][\x7d\x7b1)(|\\/tfjrxnuvczXYUJCLQ0OZmwqpdbkhao*#MW&8%B@$"

def DEFAULT_ASCII_WIDTH : ℤ := 80

def MIN_ASCII_WIDTH : ℤ := 20

def MAX_ASCII_WIDTH : ℤ := 300

def ASCII_CHAR_WIDTH : ℤ := 6

def ASCII_CHAR_HEIGHT : ℤ := 12

def ASCII_FONT_SIZE : ℚ := 3 / 10

def RED_WEIGHT : ℚ := 299 / 1000

def GREEN_WEIGHT : ℚ := 587 / 1000

def BLUE_WEIGHT : ℚ := 114 / 1000

/-- The converter's member `currentCharset`, a copy of `ASCII_CHARS`. -/
def currentCharset : List Char := ASCII_CHARS.data

/-- One BGR pixel (`cv::Vec3b` is stored blue-green-red); components are
modelled as `ℤ` so that synthetic out-of-range values can be fed in. -/
structure Pixel where
  b : ℤ
  g : ℤ
  r : ℤ
deriving DecidableEq

def blackPixel : Pixel := ⟨0, 0, 0⟩

/-- `static_cast<int>` applied to a rational value: C++ float-to-int
conversion truncates toward zero. -/
def ratTrunc (q : ℚ) : ℤ := Int.tdiv q.num q.den

/-- `std::max(0.0, std::min(1.0, brightness))` from `getASCIIChar`. -/
def clamp01 (v : ℚ) : ℚ := max 0 (min 1 v)

/-- The luminance computed in `generateColorASCIIFrame`:
`(0.299*R + 0.587*G + 0.114*B) / 255.0` on the BGR components. -/
def luminance (p : Pixel) : ℚ :=
  (RED_WEIGHT * (p.r : ℚ) + GREEN_WEIGHT * (p.g : ℚ) + BLUE_WEIGHT * (p.b : ℚ)) / 255

/-- The index computation in `getASCIIChar` for a ramp of length `N`:
clamp the brightness to `[0,1]`, truncate `brightness * (N-1)` to `int`,
then clamp the index to `[0, N-1]`. -/
def asciiIndex (N : ℕ) (brightness : ℚ) : ℤ :=
  let b := clamp01 brightness
  let index := ratTrunc (b * ((N : ℚ) - 1))
  max 0 (min ((N : ℤ) - 1) index)

/-- `getASCIIChar`: select the ramp glyph at the clamped index. -/
def getASCIIChar (charset : List Char) (brightness : ℚ) : Char :=
  charset.getD (asciiIndex charset.length brightness).toNat ' '

/-- The grid-height computation in `convertToColorASCII`:
`static_cast<int>((asciiWidth * originalHeight / originalWidth) * 0.5)`
with C++ `int` division (truncation toward zero) inside, and a
truncating cast of the halved value outside. -/
def asciiHeight (asciiWidth originalHeight originalWidth : ℤ) : ℤ :=
  Int.tdiv (Int.tdiv (asciiWidth * originalHeight) originalWidth) 2

/-- Modelled from the spec: `asciiHeight = floor(asciiWidth ×
originalHeight / originalWidth × 0.5)` evaluated over the rationals. -/
def asciiHeightSpec (asciiWidth originalHeight originalWidth : ℤ) : ℤ :=
  ⌊(asciiWidth : ℚ) * (originalHeight : ℚ) / (originalWidth : ℚ) * (1 / 2)⌋

/-- `cv::VideoWriter::fourcc`: pack four characters little-endian. -/
def fourcc (c1 c2 c3 c4 : Char) : ℕ :=
  c1.toNat + 256 * c2.toNat + 65536 * c3.toNat + 16777216 * c4.toNat

/-- The ordered codec candidate list `codecList` from
`convertToColorASCII`: mp4v, avc1, X264, H264. -/
def codecList : List ℕ :=
  [fourcc 'm' 'p' '4' 'v', fourcc 'a' 'v' 'c' '1',
   fourcc 'X' '2' '6' '4', fourcc 'H' '2' '6' '4']

/-- The writer-opening loop: try each codec in order, first success wins. -/
def tryCodecs (writerOpens : ℕ → Bool) : List ℕ → Option ℕ
  | [] => none
  | c :: rest => if writerOpens c then some c else tryCodecs writerOpens rest

end MikuASCII

namespace MikuASCII

/-- A decoded frame at ASCII-grid size: rows of BGR pixels
(`colorFrame.at<Vec3b>(y, x)` is row `y`, column `x`). -/
abbrev ColorFrame := List (List Pixel)

/-- One `cv::putText` call recorded with all its arguments
(`FONT_HERSHEY_SIMPLEX = 0`, `LINE_AA = 16`). -/
structure DrawOp where
  text : Char
  pos : ℤ × ℤ
  fontFace : ℕ
  fontScale : ℚ
  color : Pixel
  thickness : ℤ
  lineType : ℕ
deriving DecidableEq

/-- The output canvas of `generateColorASCIIFrame`: its pixel
dimensions, the uniform initial colour, and the ordered draw calls. -/
structure AsciiFrame where
  rows : ℤ
  cols : ℤ
  background : Pixel
  ops : List DrawOp
deriving DecidableEq

def defaultDrawOp : DrawOp :=
  { text := ' ', pos := (0, 0), fontFace := 0, fontScale := 0,
    color := blackPixel, thickness := 0, lineType := 0 }

def emptyAsciiFrame : AsciiFrame :=
  { rows := 0, cols := 0, background := blackPixel, ops := [] }

/-- The `cv::putText` call issued for the grid cell at `(x, y)` holding
`pixel`: the glyph selected from the cell's luminance, drawn in the
cell's own BGR colour at `(x*6, (y+1)*12 - 2)`. -/
def cellDrawOp (pixel : Pixel) (x y : ℕ) : DrawOp :=
  { text := getASCIIChar currentCharset (luminance pixel)
    pos := ((x : ℤ) * ASCII_CHAR_WIDTH, ((y : ℤ) + 1) * ASCII_CHAR_HEIGHT - 2)
    fontFace := 0
    fontScale := ASCII_FONT_SIZE
    color := pixel
    thickness := 1
    lineType := 16 }

/-- `generateColorASCIIFrame`: a black canvas of `height*12` by
`width*6` pixels, with one `putText` per grid cell, rows outer loop
and columns inner loop. -/
def generateColorASCIIFrame (colorFrame : ColorFrame) : AsciiFrame :=
  let height := colorFrame.length
  let width := (colorFrame.headD []).length
  { rows := (height : ℤ) * ASCII_CHAR_HEIGHT
    cols := (width : ℤ) * ASCII_CHAR_WIDTH
    background := blackPixel
    ops := (List.range height).flatMap (fun y =>
      (List.range width).map (fun x =>
        cellDrawOp ((colorFrame.getD y []).getD x blackPixel) x y)) }

/-- `cv::resize` with `INTER_AREA` is external OpenCV code; the pipeline
is parametrised over it. -/
abbrev ResizeFn := ColorFrame → ℤ → ℤ → ColorFrame

/-- The environment a run observes through OpenCV: whether the capture
opens, the metadata it reports, the decoded frame sequence, and which
fourcc codes the writer accepts. -/
structure VideoEnv where
  capOpens : Bool
  fps : ℚ
  totalFrames : ℤ
  originalWidth : ℤ
  originalHeight : ℤ
  frames : List ColorFrame
  writerOpens : ℕ → Bool

/-- The per-frame `while` loop: read a frame, resize it to the grid,
render it, write it, until the capture is exhausted. -/
def processFrames (resize : ResizeFn) (aw ah : ℤ) : List ColorFrame → List AsciiFrame
  | [] => []
  | f :: rest => generateColorASCIIFrame (resize f aw ah) :: processFrames resize aw ah rest

/-- The observable outcome of `convertToColorASCII`: the boolean return
value, which resources were acquired and released, the codec chosen,
the computed grid, and the frames written to the output container. -/
structure ConvResult where
  success : Bool
  capOpened : Bool
  capReleased : Bool
  writerOpened : Bool
  writerReleased : Bool
  usedCodec : Option ℕ
  grid : Option (ℤ × ℤ)
  written : List AsciiFrame
deriving DecidableEq

/-- `convertToColorASCII`: open the capture (fail ⇒ return false),
compute the grid height, negotiate a codec over `codecList` (all fail ⇒
release the capture and return false), then process every frame and
release both handles. -/
def convertToColorASCII (resize : ResizeFn) (env : VideoEnv)
    (inputPath outputPath : String) (asciiWidth : ℤ) (quality : ℚ) : ConvResult :=
  if env.capOpens = false then
    { success := false, capOpened := false, capReleased := false,
      writerOpened := false, writerReleased := false,
      usedCodec := none, grid := none, written := [] }
  else
    let ah := asciiHeight asciiWidth env.originalHeight env.originalWidth
    match tryCodecs env.writerOpens codecList with
    | none =>
      { success := false, capOpened := true, capReleased := true,
        writerOpened := false, writerReleased := false,
        usedCodec := none, grid := some (asciiWidth, ah), written := [] }
    | some codec =>
      { success := true, capOpened := true, capReleased := true,
        writerOpened := true, writerReleased := true,
        usedCodec := some codec, grid := some (asciiWidth, ah),
        written := processFrames resize asciiWidth ah env.frames }

/-- One `isspace` character for `atoi`'s leading-whitespace skip. -/
def isAsciiSpace (c : Char) : Bool :=
  c = ' ' || c = '\t' || c = '\n' || c = '\x0b' || c = '\x0c' || c = '\r'

/-- The digit-accumulation loop of C `atoi`: consume leading decimal
digits, stop at the first non-digit. -/
def atoiLoop : List Char → ℤ → ℤ
  | [], acc => acc
  | c :: rest, acc =>
    if c.isDigit then atoiLoop rest (10 * acc + ((c.toNat : ℤ) - 48)) else acc

/-- C `std::atoi`: skip whitespace, optional sign, then leading digits;
no digits at all yields 0. -/
def atoi (s : String) : ℤ :=
  match s.data.dropWhile isAsciiSpace with
  | [] => 0
  | c :: rest =>
    if c = '-' then - atoiLoop rest 0
    else if c = '+' then atoiLoop rest 0
    else atoiLoop (c :: rest) 0

/-- What stands after `atoi`'s whitespace/sign skipping. -/
def leadingBody (s : String) : List Char :=
  match s.data.dropWhile isAsciiSpace with
  | [] => []
  | c :: rest => if c = '-' ∨ c = '+' then rest else c :: rest

/-- The argument has no leading digits in the position `atoi` reads them. -/
def leadingDigitFree (s : String) : Bool :=
  match leadingBody s with
  | [] => true
  | c :: _ => !c.isDigit

/-- The observable outcome of `main`: the exit code, whether the input
file was ever opened (the first I/O), the validated width, and the
conversion result when conversion ran. -/
structure MainResult where
  exitCode : ℤ
  attemptedInputOpen : Bool
  parsedWidth : Option ℤ
  conv : Option ConvResult
deriving DecidableEq

/-- `main`: fewer than two real arguments ⇒ usage and exit 1; parse the
optional third argument with `atoi` (default 80); reject widths outside
`[20, 300]` with exit 1 before any file is touched; otherwise run the
conversion with quality fixed at 1.0 and map its boolean to the exit
code. -/
def main (resize : ResizeFn) (env : VideoEnv) (args : List String) : MainResult :=
  if args.length < 3 then
    { exitCode := 1, attemptedInputOpen := false, parsedWidth := none, conv := none }
  else
    let asciiWidth : ℤ :=
      if 4 ≤ args.length then atoi (args.getD 3 "") else DEFAULT_ASCII_WIDTH
    if asciiWidth < MIN_ASCII_WIDTH ∨ asciiWidth > MAX_ASCII_WIDTH then
      { exitCode := 1, attemptedInputOpen := false, parsedWidth := none, conv := none }
    else
      let r := convertToColorASCII resize env (args.getD 1 "") (args.getD 2 "") asciiWidth 1
      { exitCode := if r.success then 0 else 1,
        attemptedInputOpen := true, parsedWidth := some asciiWidth, conv := some r }

/-- The pair printed as "ASCII网格" and used for both resize and canvas
sizing: the computed grid dimensions of a run. -/
def gridDims (env : VideoEnv) (asciiWidth : ℤ) : ℤ × ℤ :=
  (asciiWidth, asciiHeight asciiWidth env.originalHeight env.originalWidth)

/-- The glyph indices computed for one resized frame, in loop order. -/
def frameGlyphIndices (cf : ColorFrame) : List ℤ :=
  (List.range cf.length).flatMap (fun y =>
    (List.range (cf.headD []).length).map (fun x =>
      asciiIndex currentCharset.length (luminance ((cf.getD y []).getD x blackPixel))))

/-- The glyph indices computed over the whole run, frame by frame. -/
def pipelineGlyphIndices (resize : ResizeFn) (env : VideoEnv) (asciiWidth : ℤ) : List ℤ :=
  env.frames.flatMap (fun f =>
    frameGlyphIndices (resize f asciiWidth
      (asciiHeight asciiWidth env.originalHeight env.originalWidth)))

end MikuASCII

namespace MikuASCII

/-! ### Helper lemmas -/

lemma clamp01_nonneg (v : ℚ) : 0 ≤ clamp01 v := le_max_left 0 _

lemma clamp01_le_one (v : ℚ) : clamp01 v ≤ 1 :=
  max_le (by norm_num) (min_le_left 1 v)

lemma clamp01_of_mem {b : ℚ} (h0 : 0 ≤ b) (h1 : b ≤ 1) : clamp01 b = b := by
  unfold clamp01
  rw [min_eq_right h1, max_eq_right h0]

lemma ratTrunc_eq_floor {q : ℚ} (hq : 0 ≤ q) : ratTrunc q = ⌊q⌋ := by
  unfold ratTrunc
  rw [Int.tdiv_eq_ediv (Rat.num_nonneg.mpr hq) (by positivity)]
  exact Rat.floor_def.symm

lemma asciiIndex_eq (N : ℕ) (b : ℚ) (hN : 1 ≤ N) :
    asciiIndex N b = max 0 (min ((N : ℤ) - 1) ⌊clamp01 b * ((N : ℚ) - 1)⌋) := by
  have hNq : (0 : ℚ) ≤ (N : ℚ) - 1 := by
    have h1 : (1 : ℚ) ≤ (N : ℚ) := by exact_mod_cast hN
    linarith
  simp only [asciiIndex]
  rw [ratTrunc_eq_floor (mul_nonneg (clamp01_nonneg b) hNq)]

lemma asciiIndex_nonneg (N : ℕ) (b : ℚ) : 0 ≤ asciiIndex N b :=
  le_max_left 0 _

lemma asciiIndex_le (N : ℕ) (hN : 1 ≤ N) (b : ℚ) : asciiIndex N b ≤ (N : ℤ) - 1 := by
  have hNz : (1 : ℤ) ≤ (N : ℤ) := by exact_mod_cast hN
  simp only [asciiIndex]
  exact max_le (by linarith) (min_le_left _ _)

/-! ### Claim C1 -/

/-- Claim C1: for every ramp length `N ≥ 2` and brightness `b ∈ [0,1]`,
the index computed by `getASCIIChar` equals
`clamp(floor(b * (N-1)), 0, N-1)`, is monotone non-decreasing in `b`,
and maps 0 to 0 and 1 to `N-1`. -/
theorem glyphIndex_linear_monotone (N : ℕ) (hN : 2 ≤ N) :
    (∀ b : ℚ, 0 ≤ b → b ≤ 1 →
        asciiIndex N b = max 0 (min ((N : ℤ) - 1) ⌊b * ((N : ℚ) - 1)⌋)) ∧
    (∀ b₁ b₂ : ℚ, 0 ≤ b₁ → b₁ ≤ b₂ → b₂ ≤ 1 → asciiIndex N b₁ ≤ asciiIndex N b₂) ∧
    asciiIndex N 0 = 0 ∧ asciiIndex N 1 = (N : ℤ) - 1 := by
  have hN1 : 1 ≤ N := le_trans (by norm_num) hN
  have hNz : (1 : ℤ) ≤ (N : ℤ) := by exact_mod_cast hN1
  have hNq : (0 : ℚ) ≤ (N : ℚ) - 1 := by
    have h1 : (1 : ℚ) ≤ (N : ℚ) := by exact_mod_cast hN1
    linarith
  have key : ∀ b : ℚ, 0 ≤ b → b ≤ 1 →
      asciiIndex N b = max 0 (min ((N : ℤ) - 1) ⌊b * ((N : ℚ) - 1)⌋) := by
    intro b hb0 hb1
    rw [asciiIndex_eq N b hN1, clamp01_of_mem hb0 hb1]
  refine ⟨key, ?_, ?_, ?_⟩
  · intro b₁ b₂ h0 h12 h21
    rw [key b₁ h0 (le_trans h12 h21), key b₂ (le_trans h0 h12) h21]
    have hmul : b₁ * ((N : ℚ) - 1) ≤ b₂ * ((N : ℚ) - 1) :=
      mul_le_mul_of_nonneg_right h12 hNq
    exact max_le_max le_rfl (min_le_min le_rfl (Int.floor_le_floor hmul))
  · rw [key 0 le_rfl zero_le_one, zero_mul, Int.floor_zero,
      min_eq_right (by linarith), max_self]
  · rw [key 1 zero_le_one le_rfl, one_mul]
    have hcast : (N : ℚ) - 1 = (((N : ℤ) - 1 : ℤ) : ℚ) := by push_cast; ring
    rw [hcast, Int.floor_intCast, min_self, max_eq_right (by linarith)]

/-- Witness for C1 at the real ramp length 70. -/
theorem glyphIndex_linear_monotone_witness :
    2 ≤ 70 ∧ asciiIndex 70 0 = 0 ∧ asciiIndex 70 1 = 69 := by
  have h := glyphIndex_linear_monotone 70 (by norm_num)
  refine ⟨by norm_num, h.2.2.1, ?_⟩
  have h2 := h.2.2.2
  norm_num at h2
  exact h2

/-! ### Claim C3 -/

/-- Claim C3: for every BGR triple, including synthetic out-of-range
component values, the clamped luminance lies in `[0,1]` and the glyph
index stays inside the 70-glyph ramp, so glyph selection never fails. -/
theorem luminance_clamp_safe (p : Pixel) :
    0 ≤ clamp01 (luminance p) ∧ clamp01 (luminance p) ≤ 1 ∧
    0 ≤ asciiIndex currentCharset.length (luminance p) ∧
    asciiIndex currentCharset.length (luminance p) ≤ (currentCharset.length : ℤ) - 1 ∧
    (asciiIndex currentCharset.length (luminance p)).toNat < currentCharset.length := by
  have hlen : currentCharset.length = 70 := by decide
  have h0 := asciiIndex_nonneg currentCharset.length (luminance p)
  have h1 := asciiIndex_le currentCharset.length (by rw [hlen]; norm_num) (luminance p)
  refine ⟨clamp01_nonneg _, clamp01_le_one _, h0, h1, ?_⟩
  rw [hlen] at h1 ⊢
  omega

end MikuASCII

namespace MikuASCII

/-! ### Claim C2 -/

lemma natCast_div_int (m n : ℕ) : ((m / n : ℕ) : ℤ) = (m : ℤ) / (n : ℤ) := by
  exact_mod_cast rfl

lemma tdiv_tdiv_two_eq_floor (a w : ℤ) (ha : 0 ≤ a) (hw : 0 ≤ w) :
    Int.tdiv (Int.tdiv a w) 2 = ⌊(a : ℚ) / (w : ℚ) * (1 / 2)⌋ := by
  obtain ⟨A, rfl⟩ := Int.eq_ofNat_of_zero_le ha
  obtain ⟨W, rfl⟩ := Int.eq_ofNat_of_zero_le hw
  calc Int.tdiv (Int.tdiv (A : ℤ) (W : ℤ)) 2
      = ((A / W / 2 : ℕ) : ℤ) := by
        rw [← Int.ofNat_tdiv A W, show (2 : ℤ) = ((2 : ℕ) : ℤ) from rfl,
          ← Int.ofNat_tdiv (A / W) 2]
    _ = ((A / (W * 2) : ℕ) : ℤ) := by rw [Nat.div_div_eq_div_mul]
    _ = ⌊((A : ℤ) : ℚ) / ((W * 2 : ℕ) : ℚ)⌋ := by
        rw [Rat.floor_intCast_div_natCast, natCast_div_int]
    _ = ⌊((A : ℤ) : ℚ) / ((W : ℤ) : ℚ) * (1 / 2)⌋ := by
        congr 1
        rw [mul_one_div, div_div]
        push_cast
        ring_nf

/-- Counterexample for C2 as stated: at `asciiWidth = -1`,
`originalHeight = 3`, `originalWidth = 2`, the code's truncating
arithmetic yields 0 while the rational floor formula yields -1. -/
theorem asciiHeight_floor_counterexample :
    ¬ (∀ aw oh ow : ℤ, 0 < oh → 0 < ow →
        asciiHeight aw oh ow = asciiHeightSpec aw oh ow) := by
  intro h
  have h2 := h (-1) 3 2 (by norm_num) (by norm_num)
  have hL : asciiHeight (-1) 3 2 = 0 := by decide
  have hR : asciiHeightSpec (-1) 3 2 = -1 := by
    unfold asciiHeightSpec
    rw [show ((-1 : ℤ) : ℚ) * ((3 : ℤ) : ℚ) / ((2 : ℤ) : ℚ) * (1 / 2) = -3 / 4 by norm_num]
    rw [Int.floor_eq_iff]
    norm_num
  rw [hL, hR] at h2
  exact absurd h2 (by norm_num)

/-- Claim C2 (amended): for nonnegative `asciiWidth` and positive
`originalWidth`, `originalHeight`, the int-truncating computation
`static_cast<int>((asciiWidth * originalHeight / originalWidth) * 0.5)`
equals the rational floor `floor(asciiWidth * originalHeight /
originalWidth * 0.5)`; the witness checks the 1920x1080, width-150
instance giving 42. -/
theorem asciiHeight_eq_floor_spec (aw oh ow : ℤ) (haw : 0 ≤ aw)
    (hoh : 0 < oh) (how : 0 < ow) :
    asciiHeight aw oh ow = asciiHeightSpec aw oh ow := by
  unfold asciiHeight asciiHeightSpec
  rw [tdiv_tdiv_two_eq_floor (aw * oh) ow (mul_nonneg haw hoh.le) how.le]
  congr 2
  push_cast
  ring

/-- Witness for C2: the spec's own numeric example. -/
theorem asciiHeight_eq_floor_spec_witness :
    asciiHeight 150 1080 1920 = asciiHeightSpec 150 1080 1920 ∧
    asciiHeight 150 1080 1920 = 42 :=
  ⟨asciiHeight_eq_floor_spec 150 1080 1920 (by norm_num) (by norm_num) (by norm_num),
   by decide⟩

end MikuASCII

namespace MikuASCII

/-! ### Claim C4 -/

lemma tryCodecs_eq_findq (opens : ℕ → Bool) (l : List ℕ) :
    tryCodecs opens l = l.find? opens := by
  induction l with
  | nil => rfl
  | cons c rest ih =>
    cases h : opens c <;> simp [tryCodecs, List.find?_cons, h, ih]

lemma tryCodecs_eq_none_iff (opens : ℕ → Bool) (l : List ℕ) :
    tryCodecs opens l = none ↔ ∀ c ∈ l, opens c = false := by
  rw [tryCodecs_eq_findq]
  simp [List.find?_eq_none]

/-- A fixed stand-in for the external `cv::resize`. -/
def sampleResize : ResizeFn := fun f _ _ => f

def progArg : String := "prog"

def inArg : String := "input.mp4"

def outArg : String := "output.mp4"

/-- An environment whose writer rejects every codec. -/
def envAllFail : VideoEnv :=
  { capOpens := true, fps := 30, totalFrames := 0, originalWidth := 1920,
    originalHeight := 1080, frames := [], writerOpens := fun _ => false }

/-- An environment whose writer rejects the first codec and accepts the
second. -/
def envSecondCodec : VideoEnv :=
  { capOpens := true, fps := 30, totalFrames := 0, originalWidth := 1920,
    originalHeight := 1080, frames := [],
    writerOpens := fun c => c == fourcc 'a' 'v' 'c' '1' }

/-- An environment where everything succeeds, with two 1x1 frames. -/
def envAllOpen : VideoEnv :=
  { capOpens := true, fps := 30, totalFrames := 2, originalWidth := 2,
    originalHeight := 2, frames := [[[⟨10, 20, 30⟩]], [[⟨255, 255, 255⟩]]],
    writerOpens := fun _ => true }

/-- Claim C4: with the source open, the sink-opening loop selects the
first codec of `codecList` the writer accepts (so a later candidate is
used and the run succeeds when an earlier one fails), and when every
candidate fails the conversion returns failure, releases the capture,
never opens a writer, writes nothing, and `main` exits nonzero. -/
theorem codec_fallback (resize : ResizeFn) (env : VideoEnv)
    (prog inputPath outputPath : String) (aw : ℤ) (q : ℚ)
    (hcap : env.capOpens = true) :
    (convertToColorASCII resize env inputPath outputPath aw q).usedCodec =
        codecList.find? env.writerOpens ∧
    ((∃ c ∈ codecList, env.writerOpens c = true) →
        (convertToColorASCII resize env inputPath outputPath aw q).success = true) ∧
    ((∀ c ∈ codecList, env.writerOpens c = false) →
        (convertToColorASCII resize env inputPath outputPath aw q).success = false ∧
        (convertToColorASCII resize env inputPath outputPath aw q).capReleased = true ∧
        (convertToColorASCII resize env inputPath outputPath aw q).writerOpened = false ∧
        (convertToColorASCII resize env inputPath outputPath aw q).written = [] ∧
        (main resize env [prog, inputPath, outputPath]).exitCode = 1) := by
  rcases hfind : tryCodecs env.writerOpens codecList with _ | c
  · have hall : ∀ c ∈ codecList, env.writerOpens c = false :=
      (tryCodecs_eq_none_iff env.writerOpens codecList).mp hfind
    have hres : convertToColorASCII resize env inputPath outputPath aw q =
        { success := false, capOpened := true, capReleased := true,
          writerOpened := false, writerReleased := false,
          usedCodec := none,
          grid := some (aw, asciiHeight aw env.originalHeight env.originalWidth),
          written := [] } := by
      simp [convertToColorASCII, hcap, hfind]
    refine ⟨?_, ?_, ?_⟩
    · rw [hres, ← tryCodecs_eq_findq, hfind]
    · intro ⟨c, hc, hopen⟩
      rw [hall c hc] at hopen
      exact absurd hopen (by norm_num)
    · intro _
      refine ⟨by rw [hres], by rw [hres], by rw [hres], by rw [hres], ?_⟩
      have hresD : convertToColorASCII resize env inputPath outputPath (80 : ℤ) 1 =
          { success := false, capOpened := true, capReleased := true,
            writerOpened := false, writerReleased := false,
            usedCodec := none,
            grid := some (80,
              asciiHeight 80 env.originalHeight env.originalWidth),
            written := [] } := by
        simp [convertToColorASCII, hcap, hfind]
      simp [main, List.getD, DEFAULT_ASCII_WIDTH, MIN_ASCII_WIDTH, MAX_ASCII_WIDTH, hresD]
  · have hres : convertToColorASCII resize env inputPath outputPath aw q =
        { success := true, capOpened := true, capReleased := true,
          writerOpened := true, writerReleased := true,
          usedCodec := some c,
          grid := some (aw, asciiHeight aw env.originalHeight env.originalWidth),
          written := processFrames resize aw
            (asciiHeight aw env.originalHeight env.originalWidth) env.frames } := by
      simp [convertToColorASCII, hcap, hfind]
    refine ⟨?_, fun _ => by rw [hres], ?_⟩
    · rw [hres, ← tryCodecs_eq_findq, hfind]
    · intro hall
      have : tryCodecs env.writerOpens codecList = none :=
        (tryCodecs_eq_none_iff env.writerOpens codecList).mpr hall
      rw [hfind] at this
      exact absurd this (by simp)

/-- Witness for C4: a writer accepting only the second codec uses it and
succeeds; a writer accepting none fails, releases the capture, and
`main` exits 1. -/
theorem codec_fallback_witness :
    (convertToColorASCII sampleResize envSecondCodec inArg outArg 80 1).usedCodec =
        some (fourcc 'a' 'v' 'c' '1') ∧
    (convertToColorASCII sampleResize envSecondCodec inArg outArg 80 1).success = true ∧
    (convertToColorASCII sampleResize envAllFail inArg outArg 80 1).success = false ∧
    (convertToColorASCII sampleResize envAllFail inArg outArg 80 1).capReleased = true ∧
    (convertToColorASCII sampleResize envAllFail inArg outArg 80 1).written = [] ∧
    (main sampleResize envAllFail [progArg, inArg, outArg]).exitCode = 1 := by
  have h1 := codec_fallback sampleResize envSecondCodec progArg inArg outArg 80 1 rfl
  have h2 := codec_fallback sampleResize envAllFail progArg inArg outArg 80 1 rfl
  have hfail : ∀ c ∈ codecList, envAllFail.writerOpens c = false := by
    intro c _
    rfl
  have h2all := h2.2.2 hfail
  refine ⟨?_, ?_, h2all.1, h2all.2.1, h2all.2.2.2.1, h2all.2.2.2.2⟩
  · rw [h1.1]
    decide
  · exact h1.2.1 ⟨fourcc 'a' 'v' 'c' '1', by decide, by decide⟩

/-! ### Claim C6 -/

lemma processFrames_length (resize : ResizeFn) (aw ah : ℤ) (l : List ColorFrame) :
    (processFrames resize aw ah l).length = l.length := by
  induction l with
  | nil => rfl
  | cons f rest ih => simp [processFrames, ih]

lemma processFrames_getD (resize : ResizeFn) (aw ah : ℤ) (l : List ColorFrame)
    (k : ℕ) (hk : k < l.length) :
    (processFrames resize aw ah l).getD k emptyAsciiFrame =
      generateColorASCIIFrame (resize (l.getD k []) aw ah) := by
  induction l generalizing k with
  | nil => simp at hk
  | cons f rest ih =>
    cases k with
    | zero => simp [processFrames]
    | succ k =>
      simp only [processFrames, List.getD_cons_succ]
      exact ih k (by simpa using hk)

/-- Claim C6: a run whose capture opens and whose writer accepts some
codec succeeds, writes exactly one output frame per input frame, and the
k-th written frame is the rendering of the k-th frame read. -/
theorem frame_count_invariant (resize : ResizeFn) (env : VideoEnv)
    (inputPath outputPath : String) (aw : ℤ) (q : ℚ)
    (hcap : env.capOpens = true)
    (hcodec : ∃ c ∈ codecList, env.writerOpens c = true) :
    (convertToColorASCII resize env inputPath outputPath aw q).success = true ∧
    (convertToColorASCII resize env inputPath outputPath aw q).written.length =
        env.frames.length ∧
    ∀ k : ℕ, k < env.frames.length →
      (convertToColorASCII resize env inputPath outputPath aw q).written.getD
          k emptyAsciiFrame =
        generateColorASCIIFrame (resize (env.frames.getD k []) aw
          (asciiHeight aw env.originalHeight env.originalWidth)) := by
  rcases hfind : tryCodecs env.writerOpens codecList with _ | c
  · obtain ⟨c, hc, hopen⟩ := hcodec
    have hall := (tryCodecs_eq_none_iff env.writerOpens codecList).mp hfind
    rw [hall c hc] at hopen
    exact absurd hopen (by norm_num)
  · have hres : convertToColorASCII resize env inputPath outputPath aw q =
        { success := true, capOpened := true, capReleased := true,
          writerOpened := true, writerReleased := true,
          usedCodec := some c,
          grid := some (aw, asciiHeight aw env.originalHeight env.originalWidth),
          written := processFrames resize aw
            (asciiHeight aw env.originalHeight env.originalWidth) env.frames } := by
      simp [convertToColorASCII, hcap, hfind]
    rw [hres]
    refine ⟨rfl, processFrames_length _ _ _ _, ?_⟩
    intro k hk
    exact processFrames_getD _ _ _ _ k hk

/-- Witness for C6 on a concrete two-frame run. -/
theorem frame_count_invariant_witness :
    (convertToColorASCII sampleResize envAllOpen inArg outArg 80 1).written.length = 2 ∧
    (convertToColorASCII sampleResize envAllOpen inArg outArg 80 1).written.getD
        0 emptyAsciiFrame =
      generateColorASCIIFrame (sampleResize (envAllOpen.frames.getD 0 []) 80
        (asciiHeight 80 envAllOpen.originalHeight envAllOpen.originalWidth)) := by
  have h := frame_count_invariant sampleResize envAllOpen inArg outArg 80 1 rfl
    ⟨fourcc 'm' 'p' '4' 'v', by decide, rfl⟩
  exact ⟨h.2.1, h.2.2 0 (by norm_num [envAllOpen])⟩

end MikuASCII

namespace MikuASCII

/-! ### Claim C7 -/

lemma flatten_getD_uniform {α : Type} (d : α) :
    ∀ (L : List (List α)) (w y x : ℕ), (∀ l ∈ L, l.length = w) →
      y < L.length → x < w →
      L.flatten.getD (y * w + x) d = (L.getD y []).getD x d := by
  intro L
  induction L with
  | nil =>
    intro w y x _ hy _
    simp at hy
  | cons l rest ih =>
    intro w y x hlen hy hx
    have hl : l.length = w := hlen l (List.mem_cons_self l rest)
    cases y with
    | zero =>
      rw [List.flatten_cons, Nat.zero_mul, Nat.zero_add,
        List.getD_append _ _ _ _ (by rw [hl]; exact hx), List.getD_cons_zero]
    | succ y =>
      rw [List.flatten_cons, List.getD_cons_succ]
      have hidx : (y + 1) * w + x = l.length + (y * w + x) := by rw [hl]; ring
      rw [hidx, List.getD_append_right _ _ _ _ (Nat.le_add_right _ _),
        Nat.add_sub_cancel_left]
      exact ih w y x (fun l2 h2 => hlen l2 (List.mem_cons_of_mem _ h2))
        (Nat.lt_of_succ_lt_succ hy) hx

lemma flatten_length_uniform {α : Type} :
    ∀ (L : List (List α)) (w : ℕ), (∀ l ∈ L, l.length = w) →
      L.flatten.length = L.length * w := by
  intro L
  induction L with
  | nil =>
    intro w _
    simp
  | cons l rest ih =>
    intro w hlen
    rw [List.flatten_cons, List.length_append, hlen l (List.mem_cons_self l rest),
      ih w (fun l2 h2 => hlen l2 (List.mem_cons_of_mem _ h2)), List.length_cons]
    ring

lemma map_range_getD {α : Type} (f : ℕ → α) (n y : ℕ) (hy : y < n) (d : α) :
    ((List.range n).map f).getD y d = f y := by
  rw [List.getD_eq_getElem?_getD, List.getElem?_map, List.getElem?_range hy]
  rfl

/-- Claim C7: on a rectangular `w x h` grid, the output canvas is
exactly `w*6` by `h*12` pixels, starts fully black, contains exactly one
draw call per cell, and the cell at `(x, y)` gets its glyph drawn in its
own colour at pixel origin `(x*6, (y+1)*12 - 2)`; the source grid is
read-only throughout. -/
theorem rasterizer_draws_cells (cf : ColorFrame) (w h : ℕ)
    (hh : cf.length = h) (hw : ∀ row ∈ cf, row.length = w) (hpos : 0 < h) :
    (generateColorASCIIFrame cf).cols = (w : ℤ) * 6 ∧
    (generateColorASCIIFrame cf).rows = (h : ℤ) * 12 ∧
    (generateColorASCIIFrame cf).background = blackPixel ∧
    (generateColorASCIIFrame cf).ops.length = h * w ∧
    ∀ x y : ℕ, x < w → y < h →
      (generateColorASCIIFrame cf).ops.getD (y * w + x) defaultDrawOp =
        { text := getASCIIChar currentCharset
            (luminance ((cf.getD y []).getD x blackPixel)),
          pos := ((x : ℤ) * 6, ((y : ℤ) + 1) * 12 - 2),
          fontFace := 0, fontScale := 3 / 10,
          color := (cf.getD y []).getD x blackPixel,
          thickness := 1, lineType := 16 } := by
  have hhead : (cf.headD []).length = w := by
    cases cf with
    | nil =>
      rw [← hh] at hpos
      simp at hpos
    | cons r rest => exact hw r (List.mem_cons_self r rest)
  have hops : (generateColorASCIIFrame cf).ops =
      ((List.range h).map (fun y => (List.range w).map (fun x =>
        cellDrawOp ((cf.getD y []).getD x blackPixel) x y))).flatten := by
    simp only [generateColorASCIIFrame, hh, hhead, List.flatMap_def]
  have hrowlen : ∀ l ∈ (List.range h).map (fun y => (List.range w).map (fun x =>
      cellDrawOp ((cf.getD y []).getD x blackPixel) x y)), l.length = w := by
    intro l hl
    obtain ⟨y, _, rfl⟩ := List.mem_map.mp hl
    simp
  refine ⟨?_, ?_, rfl, ?_, ?_⟩
  · show ((cf.headD []).length : ℤ) * ASCII_CHAR_WIDTH = (w : ℤ) * 6
    rw [hhead]
    rfl
  · show ((cf.length : ℤ)) * ASCII_CHAR_HEIGHT = (h : ℤ) * 12
    rw [hh]
    rfl
  · rw [hops, flatten_length_uniform _ w hrowlen]
    simp
  · intro x y hx hy
    rw [hops, flatten_getD_uniform defaultDrawOp _ w y x hrowlen (by simpa) hx,
      map_range_getD _ h y hy, map_range_getD _ w x hx]
    simp [cellDrawOp, ASCII_CHAR_WIDTH, ASCII_CHAR_HEIGHT, ASCII_FONT_SIZE]

def cfSample : ColorFrame := [[blackPixel, ⟨255, 255, 255⟩]]

/-- Witness for C7 on a concrete 2x1 grid, checking the second cell. -/
theorem rasterizer_draws_cells_witness :
    (generateColorASCIIFrame cfSample).cols = ((2 : ℕ) : ℤ) * 6 ∧
    (generateColorASCIIFrame cfSample).rows = ((1 : ℕ) : ℤ) * 12 ∧
    (generateColorASCIIFrame cfSample).background = blackPixel ∧
    (generateColorASCIIFrame cfSample).ops.length = 1 * 2 ∧
    (generateColorASCIIFrame cfSample).ops.getD (0 * 2 + 1) defaultDrawOp =
      { text := getASCIIChar currentCharset
          (luminance ((cfSample.getD 0 []).getD 1 blackPixel)),
        pos := (((1 : ℕ) : ℤ) * 6, (((0 : ℕ) : ℤ) + 1) * 12 - 2),
        fontFace := 0, fontScale := 3 / 10,
        color := (cfSample.getD 0 []).getD 1 blackPixel,
        thickness := 1, lineType := 16 } := by
  have h := rasterizer_draws_cells cfSample 2 1 rfl
    (by
      intro row hr
      rw [show row = [blackPixel, ⟨255, 255, 255⟩] by simpa [cfSample] using hr]
      rfl)
    (by norm_num)
  exact ⟨h.1, h.2.1, h.2.2.1, h.2.2.2.1, h.2.2.2.2 1 0 (by norm_num) (by norm_num)⟩

/-! ### Claim C8 -/

/-- Claim C8: the computed grid dimensions and the glyph-index sequence
depend only on the input frame sequence, the source geometry, and the
`asciiWidth` parameter; two runs agreeing on those agree on both,
whatever else (fps, codec availability, paths) differs. -/
theorem pipeline_deterministic (resize : ResizeFn) (env₁ env₂ : VideoEnv) (aw : ℤ)
    (hf : env₁.frames = env₂.frames)
    (hW : env₁.originalWidth = env₂.originalWidth)
    (hH : env₁.originalHeight = env₂.originalHeight) :
    gridDims env₁ aw = gridDims env₂ aw ∧
    pipelineGlyphIndices resize env₁ aw = pipelineGlyphIndices resize env₂ aw := by
  unfold gridDims pipelineGlyphIndices
  rw [hf, hW, hH]
  exact ⟨rfl, rfl⟩

/-- An environment agreeing with `envAllOpen` on frames and geometry but
differing in fps, capture success and codec availability. -/
def envAllOpenVariant : VideoEnv :=
  { capOpens := false, fps := 60, totalFrames := 2, originalWidth := 2,
    originalHeight := 2, frames := [[[⟨10, 20, 30⟩]], [[⟨255, 255, 255⟩]]],
    writerOpens := fun _ => false }

/-- Witness for C8 on two concrete environments. -/
theorem pipeline_deterministic_witness :
    gridDims envAllOpen 80 = gridDims envAllOpenVariant 80 ∧
    pipelineGlyphIndices sampleResize envAllOpen 80 =
      pipelineGlyphIndices sampleResize envAllOpenVariant 80 :=
  pipeline_deterministic sampleResize envAllOpen envAllOpenVariant 80 rfl rfl rfl

/-! ### Claim C9 -/

/-- Claim C9: the `quality` parameter of `convertToColorASCII` is
accepted but never read, so the result is identical for any two quality
values; `main` hard-codes 1.0 at its single call site. -/
theorem quality_parameter_unused (resize : ResizeFn) (env : VideoEnv)
    (inputPath outputPath : String) (aw : ℤ) (q₁ q₂ : ℚ) :
    convertToColorASCII resize env inputPath outputPath aw q₁ =
      convertToColorASCII resize env inputPath outputPath aw q₂ := rfl

end MikuASCII

namespace MikuASCII

/-! ### Claims C5 and C10 -/

lemma atoiLoop_nondigit (c : Char) (rest : List Char) (acc : ℤ)
    (h : c.isDigit = false) : atoiLoop (c :: rest) acc = acc := by
  simp [atoiLoop, h]

lemma atoi_eq_zero_of_leadingDigitFree (s : String)
    (h : leadingDigitFree s = true) : atoi s = 0 := by
  unfold leadingDigitFree leadingBody at h
  unfold atoi
  rcases hd : s.data.dropWhile isAsciiSpace with _ | ⟨c, rest⟩
  · rfl
  · rw [hd] at h
    have h2m : (match (if c = '-' ∨ c = '+' then rest else c :: rest : List Char) with
        | [] => true
        | d :: _ => !d.isDigit) = true := h
    show (if c = '-' then - atoiLoop rest 0
      else if c = '+' then atoiLoop rest 0 else atoiLoop (c :: rest) 0) = 0
    by_cases h1 : c = '-'
    · subst h1
      rw [if_pos rfl]
      rw [if_pos (Or.inl rfl)] at h2m
      rcases rest with _ | ⟨d, rest2⟩
      · simp [atoiLoop]
      · have hd2 : d.isDigit = false := by simpa using h2m
        rw [atoiLoop_nondigit d rest2 0 hd2]
        simp
    · by_cases h2 : c = '+'
      · subst h2
        rw [if_neg h1, if_pos rfl]
        rw [if_pos (Or.inr rfl)] at h2m
        rcases rest with _ | ⟨d, rest2⟩
        · rfl
        · have hd2 : d.isDigit = false := by simpa using h2m
          exact atoiLoop_nondigit d rest2 0 hd2
      · rw [if_neg h1, if_neg h2]
        rw [if_neg (by tauto)] at h2m
        have hd2 : c.isDigit = false := by simpa using h2m
        exact atoiLoop_nondigit c rest 0 hd2

lemma main_four_args (resize : ResizeFn) (env : VideoEnv) (p i o s : String) :
    main resize env [p, i, o, s] =
      if atoi s < MIN_ASCII_WIDTH ∨ atoi s > MAX_ASCII_WIDTH then
        { exitCode := 1, attemptedInputOpen := false, parsedWidth := none, conv := none }
      else
        { exitCode :=
            if (convertToColorASCII resize env i o (atoi s) 1).success then 0 else 1,
          attemptedInputOpen := true, parsedWidth := some (atoi s),
          conv := some (convertToColorASCII resize env i o (atoi s) 1) } := by
  simp [main, List.getD_cons_succ, List.getD_cons_zero]

/-- Counterexample for C5 as stated: the third argument "150abc" is
non-numeric (it is not a digit string), yet the run is not rejected
before any I/O — the input file is opened. -/
theorem width_nonnumeric_accepted_counterexample :
    ("150abc").data.all Char.isDigit = false ∧
    (main sampleResize envAllOpen
      [progArg, inArg, outArg, "150abc"]).attemptedInputOpen = true := by
  constructor
  · decide
  · decide

/-- Claim C5 (amended): the width argument is parsed with `atoi` and the
parsed value is validated against `[20, 300]` before any file is opened:
a parsed value outside the range (including 19 and 301, and any argument
without leading digits, which parses to 0) is rejected with exit code 1
and no I/O, while parsed values inside the range (including 20 and 300)
proceed to open the input. -/
theorem width_range_validation (resize : ResizeFn) (env : VideoEnv)
    (p i o s : String) :
    ((atoi s < 20 ∨ atoi s > 300) →
      main resize env [p, i, o, s] =
        { exitCode := 1, attemptedInputOpen := false,
          parsedWidth := none, conv := none }) ∧
    (20 ≤ atoi s → atoi s ≤ 300 →
      (main resize env [p, i, o, s]).attemptedInputOpen = true ∧
      (main resize env [p, i, o, s]).parsedWidth = some (atoi s)) := by
  rw [main_four_args]
  simp only [MIN_ASCII_WIDTH, MAX_ASCII_WIDTH]
  constructor
  · intro hcond
    rw [if_pos hcond]
  · intro h20 h300
    rw [if_neg (by omega)]
    exact ⟨rfl, rfl⟩

/-- Witness for C5 at the four boundary widths. -/
theorem width_range_validation_witness :
    main sampleResize envAllOpen [progArg, inArg, outArg, "19"] =
      { exitCode := 1, attemptedInputOpen := false,
        parsedWidth := none, conv := none } ∧
    main sampleResize envAllOpen [progArg, inArg, outArg, "301"] =
      { exitCode := 1, attemptedInputOpen := false,
        parsedWidth := none, conv := none } ∧
    (main sampleResize envAllOpen
      [progArg, inArg, outArg, "20"]).attemptedInputOpen = true ∧
    (main sampleResize envAllOpen
      [progArg, inArg, outArg, "300"]).attemptedInputOpen = true := by
  refine ⟨?_, ?_, ?_, ?_⟩
  · exact (width_range_validation sampleResize envAllOpen progArg inArg outArg
      ("19")).1 (by decide)
  · exact (width_range_validation sampleResize envAllOpen progArg inArg outArg
      ("301")).1 (by decide)
  · exact ((width_range_validation sampleResize envAllOpen progArg inArg outArg
      ("20")).2 (by decide) (by decide)).1
  · exact ((width_range_validation sampleResize envAllOpen progArg inArg outArg
      ("300")).2 (by decide) (by decide)).1

/-- Claim C10: the third CLI argument is parsed with `atoi`, so any
argument whose leading characters form an integer in `[20, 300]` is
accepted with that value even when non-numeric text follows, while an
argument with no leading digits parses to 0 and is rejected with exit
code 1. -/
theorem atoi_prefix_width (resize : ResizeFn) (env : VideoEnv)
    (p i o s : String) :
    (20 ≤ atoi s → atoi s ≤ 300 →
      (main resize env [p, i, o, s]).parsedWidth = some (atoi s) ∧
      (main resize env [p, i, o, s]).attemptedInputOpen = true) ∧
    (leadingDigitFree s = true →
      atoi s = 0 ∧
      main resize env [p, i, o, s] =
        { exitCode := 1, attemptedInputOpen := false,
          parsedWidth := none, conv := none }) := by
  constructor
  · intro h20 h300
    rw [main_four_args]
    simp only [MIN_ASCII_WIDTH, MAX_ASCII_WIDTH]
    rw [if_neg (by omega)]
    exact ⟨rfl, rfl⟩
  · intro hfree
    have h0 := atoi_eq_zero_of_leadingDigitFree s hfree
    refine ⟨h0, ?_⟩
    rw [main_four_args, h0]
    simp only [MIN_ASCII_WIDTH, MAX_ASCII_WIDTH]
    rw [if_pos (by norm_num)]

/-- Witness for C10 at "150abc" (accepted as 150) and "abc" (rejected). -/
theorem atoi_prefix_width_witness :
    atoi ("150abc") = 150 ∧
    (main sampleResize envAllOpen
      [progArg, inArg, outArg, "150abc"]).parsedWidth = some (atoi ("150abc")) ∧
    leadingDigitFree ("abc") = true ∧
    atoi ("abc") = 0 ∧
    main sampleResize envAllOpen [progArg, inArg, outArg, "abc"] =
      { exitCode := 1, attemptedInputOpen := false,
        parsedWidth := none, conv := none } := by
  have h1 := (atoi_prefix_width sampleResize envAllOpen progArg inArg outArg
    ("150abc")).1 (by decide) (by decide)
  have h2 := (atoi_prefix_width sampleResize envAllOpen progArg inArg outArg
    ("abc")).2 (by decide)
  exact ⟨by decide, h1.1, by decide, h2.1, h2.2⟩

end MikuASCII
